import Mathlib

/-!
Verification development for the task event bus and generate-task pipeline of
the repository (files `api/core/application_queue_manager.py` and
`api/core/app_runner/generate_task_pipeline.py`).

The Python code is shallowly embedded: the per-task queue, the listener loop,
`publish`, `set_stop_flag` and the SQLAlchemy-payload scan are translated from
`ApplicationQueueManager`; the blocking and streaming response assemblers are
translated from `GenerateTaskPipeline`.  External collaborators (the Redis
key-value store, the model-invocation component, the agent-thought lookup) are
modelled as explicit state or as function parameters, following section 6 of
the specification.
-/

set_option autoImplicit false
set_option maxRecDepth 12000

namespace Dify

/-! ### Data model: prompt messages, results, chunks
Translated from the entities used by the pipeline (`LLMResult`,
`AssistantPromptMessage`, `LLMResultChunk`, `LLMUsage`).  The entity classes
live outside `src/`; their fields are modelled from the spec (section 3):
a result carries prompt messages, the assembled text and usage; a chunk
carries partial prompt messages and a delta text.  Decimal prices are
abstracted to integer units; fields the pipeline never reads are elided. -/

/-- A prompt message as used by the pipeline (role and content). -/
structure PromptMsg where
  role : String
  content : String
deriving DecidableEq, Repr

/-- Token/price usage figures attached to an LLM result (`LLMUsage`). -/
structure Usage where
  prompt_tokens : Nat
  completion_tokens : Nat
  total_tokens : Nat
  total_price : Int
deriving DecidableEq, Repr

/-- The assistant message of a result (`AssistantPromptMessage`). -/
structure AssistantMsg where
  content : String
deriving DecidableEq, Repr

/-- An aggregated LLM result (`LLMResult`). -/
structure LLMRes where
  model : String
  prompt_messages : List PromptMsg
  message : AssistantMsg
  usage : Usage
deriving DecidableEq, Repr

/-- The delta part of a streamed chunk; `content` may be absent
(the pipeline guards `if delta_text is None: continue`). -/
structure ChunkDelta where
  content : Option String
deriving DecidableEq, Repr

/-- A streamed result chunk (`LLMResultChunk`): partial prompt messages plus
a delta. -/
structure LLMChunk where
  prompt_messages : List PromptMsg
  delta : ChunkDelta
deriving DecidableEq, Repr

/-- Error kinds carried by a `QueueErrorEvent`, mirroring the taxonomy that
`_handle_error` distinguishes: `InvokeAuthorizationError`, `InvokeError`,
`ValueError`, and anything else (with an optional `description`). -/
inductive ErrKind where
  | invokeAuthError
  | invokeError (msg : String)
  | valueError (msg : String)
  | otherError (descr : Option String) (str : String)
deriving DecidableEq, Repr

/-! ### Queue events
Translated from `core.entities.queue_entities` as used by the two source
files: the closed set of event variants of the spec's data-model table. -/

/-- The event variants flowing through the per-task queue (`AppQueueEvent`
subclasses). -/
inductive AppEvent where
  | errorEv (error : ErrKind)
  | stopEv
  | messageEndEv (llm_result : LLMRes)
  | retrieverResourcesEv (retriever_resources : List String)
  | agentThoughtEv (agent_thought_id : String)
  | messageEv (chunk : LLMChunk)
  | messageReplaceEv (text : String)
  | pingEv
deriving DecidableEq, Repr

/-- Whether an event is a `QueueStopEvent` (used by `publish`). -/
def AppEvent.isStopEvent : AppEvent → Bool
  | .stopEv => true
  | _ => false

/-- Whether an event is a `QueueErrorEvent`. -/
def AppEvent.isErrorEvent : AppEvent → Bool
  | .errorEv _ => true
  | _ => false

/-- Whether an event is terminal for the streaming assembler's branch
`isinstance(event, (QueueStopEvent, QueueMessageEndEvent))`. -/
def AppEvent.isTerminalEvent : AppEvent → Bool
  | .stopEv => true
  | .messageEndEv _ => true
  | _ => false

/-- The envelope `QueueMessage` wrapping an event with the task identifiers
(`task_id`, `message_id`, `conversation_id`, `app_mode`). -/
structure QueueMsg where
  task_id : String
  message_id : String
  conversation_id : String
  app_mode : String
  event : AppEvent
deriving DecidableEq, Repr

/-! ### The SQLAlchemy-model scan (`_check_for_sqlalchemy_models`)

The scan operates on untyped Python values.  `PyVal` is the value universe:
plain data (strings, numbers, `None`, dicts, lists), arbitrary non-pydantic
objects (`obj b`, where `b` records whether the object has an
`_sa_instance_state` attribute, i.e. is a SQLAlchemy model instance), and
pydantic models (`pyModel fields`).  Following pydantic semantics, calling
`.dict()` on a pydantic model returns its plain-data field mapping (nested
pydantic models are already converted to plain dicts in that output, while
non-pydantic objects are kept as-is); every other Python value has no `dict`
attribute, so calling `.dict()` on it raises `AttributeError`. -/

/-- Untyped Python values as seen by the payload scan. -/
inductive PyVal where
  | strV (s : String)
  | numV (n : Int)
  | noneV
  | dictV (kvs : List (String × PyVal))
  | listV (xs : List PyVal)
  | obj (hasSaInstanceState : Bool)
  | pyModel (fields : List (String × PyVal))

/-- Python exceptions raised by the embedded fragments. -/
inductive PyExn where
  | attributeError (attr : String)
  | typeError (msg : String)
  | keyError (key : String)
deriving DecidableEq, Repr

/-- The `.dict()` method call: defined on pydantic models (returning the
plain-data field mapping), an `AttributeError` on every other value. -/
def pyDictMethod : PyVal → Except PyExn PyVal
  | .pyModel fields => Except.ok (PyVal.dictV fields)
  | _ => Except.error (PyExn.attributeError "dict")

/-- The leaf test of the scan: `isinstance(data, DeclarativeMeta) or
hasattr(data, '_sa_instance_state')`.  Only object values can carry the
attribute. -/
def isSaInstance : PyVal → Bool
  | .obj b => b
  | _ => false

/-- Translation of `ApplicationQueueManager._check_for_sqlalchemy_models`
(lines 198-210).  The source takes `event`, computes `data = event.dict()`,
recurses over dict values and list items, and otherwise raises `TypeError`
when `data` is a SQLAlchemy model.  Note that the recursive calls pass raw
values, on which the method re-runs `event.dict()`.  A fuel argument makes
the recursion structural; the fuel is never exhausted at the depths the
callers use. -/
def check_for_sqlalchemy_models : Nat → PyVal → Except PyExn Unit
  | 0, _ => Except.error (PyExn.typeError "recursion limit")
  | Nat.succ n, event =>
    match pyDictMethod event with
    | Except.error e => Except.error e
    | Except.ok data =>
      match data with
      | PyVal.dictV kvs =>
        kvs.foldl (fun acc kv => acc >>= fun _ => check_for_sqlalchemy_models n kv.snd)
          (Except.ok ())
      | PyVal.listV xs =>
        xs.foldl (fun acc x => acc >>= fun _ => check_for_sqlalchemy_models n x)
          (Except.ok ())
      | d =>
        if isSaInstance d then
          Except.error (PyExn.typeError "Critical Error: Passing SQLAlchemy Model instances that cause thread safety issues is not allowed.")
        else Except.ok ()

/-- Modelled from the spec: the pydantic field mapping (`event.dict()`
output) of each queue-event class.  The entity classes
(`core.entities.queue_entities`) are not under `src/`; the spec's data-model
table gives `Ping` and `Stop` no fields, an `Error` event an error object, a
`MessageChunk` partial prompt messages plus delta text, a `MessageReplace`
the full replacement text, a `MessageEnd` the final aggregated result, a
`RetrieverResources` event a list of resource descriptors, and an
`AgentThought` event a reference id. -/
def eventFields : AppEvent → List (String × PyVal)
  | .errorEv _ => [("error", PyVal.obj false)]
  | .stopEv => []
  | .messageEndEv r =>
    [("llm_result", PyVal.dictV
      [("model", PyVal.strV r.model),
       ("message", PyVal.dictV [("content", PyVal.strV r.message.content)])])]
  | .retrieverResourcesEv rs =>
    [("retriever_resources", PyVal.listV (rs.map PyVal.strV))]
  | .agentThoughtEv tid => [("agent_thought_id", PyVal.strV tid)]
  | .messageEv c =>
    [("chunk", PyVal.dictV
      [("prompt_messages", PyVal.listV (c.prompt_messages.map (fun p => PyVal.strV p.content))),
       ("delta", PyVal.dictV
         [("content", match c.delta.content with
           | some t => PyVal.strV t
           | none => PyVal.noneV)])])]
  | .messageReplaceEv t => [("text", PyVal.strV t)]
  | .pingEv => []

/-- The scan as invoked by `publish`: `self._check_for_sqlalchemy_models(event)`
with `event` a pydantic queue-event instance. -/
def scanEvent (e : AppEvent) : Except PyExn Unit :=
  check_for_sqlalchemy_models 100 (PyVal.pyModel (eventFields e))

/-! ### ApplicationQueueManager state, publish, cancellation -/

/-- Which caller started the task (`InvokeFrom`). -/
inductive InvokeFrom where
  | serviceApi
  | webApp
  | explore
  | debugger
deriving DecidableEq, Repr

/-- The caller-class tag computed by `__init__` and `set_stop_flag`:
`'account' if self._invoke_from in [InvokeFrom.EXPLORE, InvokeFrom.DEBUGGER]
else 'end-user'`. -/
def userTag (invoke_from : InvokeFrom) : String :=
  if invoke_from = InvokeFrom.explore ∨ invoke_from = InvokeFrom.debugger
  then "account" else "end-user"

/-- The per-task slice of the external Redis store: the ownership record at
key `generate_task_belong:[task_id]` and the stop flag at key
`generate_task_stopped:[task_id]`, each stored with its TTL. -/
structure RedisState where
  belong : Option (String × Nat)
  stopped : Option (Nat × Nat)
deriving DecidableEq, Repr

/-- The ownership write performed by `ApplicationQueueManager.__init__`
(lines 32-33): `redis_client.setex(belong_key, 1800, user_prefix-user_id)`. -/
def initTaskBelong (invoke_from : InvokeFrom) (user_id : String)
    (r : RedisState) : RedisState :=
  { r with belong := some (userTag invoke_from ++ "-" ++ user_id, 1800) }

/-- Translation of `ApplicationQueueManager.set_stop_flag` (lines 153-167):
look up the ownership record; if absent, return; if the prefixed identity of
the requester differs from the recorded owner, return; otherwise
`redis_client.setex(stopped_key, 600, 1)`. -/
def set_stop_flag (invoke_from : InvokeFrom) (user_id : String)
    (r : RedisState) : RedisState :=
  match r.belong with
  | none => r
  | some (owner, _) =>
    if owner ≠ userTag invoke_from ++ "-" ++ user_id then r
    else { r with stopped := some (1, 600) }

/-- Translation of `ApplicationQueueManager._is_stopped` (lines 169-180):
read the stop flag; when present, delete it and return true. -/
def is_stopped (r : RedisState) : Bool × RedisState :=
  match r.stopped with
  | some _ => (true, { r with stopped := none })
  | none => (false, r)

/-- The queue-manager state: task identifiers plus the per-task queue.
The queue holds `none` for the end-of-stream sentinel that `stop_listen`
enqueues, and `some envelope` for published messages. -/
structure QMState where
  task_id : String
  user_id : String
  invoke_from : InvokeFrom
  conversation_id : String
  app_mode : String
  message_id : String
  q : List (Option QueueMsg)
deriving DecidableEq, Repr

/-- Exceptions that `publish` can raise: a scan failure before enqueuing, or
`ConversationTaskStoppedException` after enqueuing a stop event. -/
inductive PubExn where
  | scanExn (e : PyExn)
  | conversationTaskStopped
deriving DecidableEq, Repr

/-- Translation of `ApplicationQueueManager.publish` (lines 132-151): run the
SQLAlchemy scan, wrap the event in a `QueueMessage` bound to the task's
identifiers, enqueue it, and raise `ConversationTaskStoppedException` when
the event is a `QueueStopEvent`.  The result pairs the updated state with the
exception, if any, so that the enqueue performed before the raise is kept. -/
def publish (s : QMState) (event : AppEvent) : QMState × Option PubExn :=
  match scanEvent event with
  | Except.error e => (s, some (PubExn.scanExn e))
  | Except.ok _ =>
    let msg : QueueMsg :=
      { task_id := s.task_id, message_id := s.message_id,
        conversation_id := s.conversation_id, app_mode := s.app_mode,
        event := event }
    let s2 := { s with q := s.q ++ [some msg] }
    if event.isStopEvent then (s2, some PubExn.conversationTaskStopped)
    else (s2, none)

/-- Translation of `ApplicationQueueManager.stop_listen` (lines 67-72):
enqueue the `None` sentinel. -/
def stop_listen (s : QMState) : QMState :=
  { s with q := s.q ++ [none] }

/-! ### The listener loop (`ApplicationQueueManager.listen`, lines 39-65)

The generator is modelled as a state machine: `listenIter` performs one
iteration of the `while True` loop (one pop attempt with its `finally`
block), and `listenRun` iterates it.  The pop with a one-tick timeout either
takes the queue head (a sentinel `None` triggers `break`, a message is
yielded) or observes an empty queue (`queue.Empty`, `continue`).  The
`finally` block then decrements `listen_timeout`, and when the budget is
exhausted or the stop flag is observed it calls
`self.publish(QueueStopEvent())` — which, per `publish`, enqueues the stop
envelope and then raises `ConversationTaskStoppedException`, so the
`self.stop_listen()` call on the next source line never executes and the
exception propagates out of the generator (through a `break` or `continue`
as well).  Otherwise, every tenth remaining tick it publishes a ping into
the same queue. -/

/-- The listener's state: queue manager (with the per-task queue), the
Redis slice holding the stop flag, the remaining `listen_timeout`, and the
number of completed loop iterations. -/
structure ListenSt where
  qm : QMState
  redis : RedisState
  t : Int
  tick : Nat
deriving DecidableEq, Repr

/-- What the pop attempt returned. -/
inductive PopRes where
  | emptyQ
  | sentinelQ
  | msgQ (m : QueueMsg)
deriving DecidableEq, Repr

/-- The message yielded to the consumer by a pop, if any. -/
def PopRes.yielded : PopRes → Option QueueMsg
  | .msgQ m => some m
  | _ => none

/-- Outcome of one loop iteration. -/
inductive IterRes where
  | stepYield (s : ListenSt) (yld : Option QueueMsg) (pinged : Bool)
  | finishNormal (s : ListenSt) (pinged : Bool)
  | raiseCancel (s : ListenSt) (yld : Option QueueMsg)
deriving DecidableEq, Repr

/-- One iteration of the `listen` loop: pop (or time out), then run the
`finally` block.  `raiseCancel` is the `ConversationTaskStoppedException`
escaping from `self.publish(QueueStopEvent())`; the yielded message, if any,
was already delivered to the consumer before the exception. -/
def listenIter (s : ListenSt) : IterRes :=
  let pop : PopRes × List (Option QueueMsg) :=
    match s.qm.q with
    | [] => (PopRes.emptyQ, [])
    | none :: rest => (PopRes.sentinelQ, rest)
    | some m :: rest => (PopRes.msgQ m, rest)
  let qm1 := { s.qm with q := pop.snd }
  let t1 := s.t - 1
  let chk : Bool × RedisState :=
    if t1 ≤ 0 then (true, s.redis) else is_stopped s.redis
  if chk.fst then
    let pub := publish qm1 AppEvent.stopEv
    IterRes.raiseCancel { qm := pub.fst, redis := chk.snd, t := t1, tick := s.tick + 1 }
      pop.fst.yielded
  else
    let pingNow : Bool := decide (0 < t1 ∧ t1 % 10 = 0)
    let qm2 := if pingNow then (publish qm1 AppEvent.pingEv).fst else qm1
    let s2 : ListenSt := { qm := qm2, redis := chk.snd, t := t1, tick := s.tick + 1 }
    match pop.fst with
    | PopRes.sentinelQ => IterRes.finishNormal s2 pingNow
    | PopRes.msgQ m => IterRes.stepYield s2 (some m) pingNow
    | PopRes.emptyQ => IterRes.stepYield s2 none pingNow

/-- Whether the iteration published a ping. -/
def IterRes.pinged : IterRes → Bool
  | .stepYield _ _ p => p
  | .finishNormal _ p => p
  | .raiseCancel _ _ => false

/-- How a listener run ended: normal return at the sentinel, the
`ConversationTaskStoppedException` raised out of the generator, or fuel
exhaustion (never reached with fuel at least 600). -/
inductive RunEnd where
  | normalEnd
  | cancelRaise
  | outOfFuel
deriving DecidableEq, Repr

/-- Observable outcome of a listener run: the messages yielded to the
consumer in order, the ticks at which a ping was published, the way the
generator ended, and the final state. -/
structure RunOut where
  yields : List QueueMsg
  pingTicks : List Nat
  endK : RunEnd
  final : ListenSt
deriving DecidableEq, Repr

/-- Iterate the listener loop, accumulating the yielded messages and the
ping ticks. -/
def listenRun : Nat → ListenSt → RunOut
  | 0, s => { yields := [], pingTicks := [], endK := RunEnd.outOfFuel, final := s }
  | Nat.succ n, s =>
    match listenIter s with
    | IterRes.raiseCancel s2 yld =>
      { yields := yld.toList, pingTicks := [], endK := RunEnd.cancelRaise, final := s2 }
    | IterRes.finishNormal s2 p =>
      { yields := [], pingTicks := if p then [s2.tick] else [],
        endK := RunEnd.normalEnd, final := s2 }
    | IterRes.stepYield s2 yld p =>
      let rest := listenRun n s2
      { yields := yld.toList ++ rest.yields,
        pingTicks := (if p then [s2.tick] else []) ++ rest.pingTicks,
        endK := rest.endK, final := rest.final }

/-! ### GenerateTaskPipeline

Translated from `api/core/app_runner/generate_task_pipeline.py`.  The
response dicts built by the pipeline are modelled as association lists over
`RVal`, preserving the insertion order and the dict-indexing semantics
(`response['data']` raises `KeyError` when the key is absent).  The external
collaborators — the model instance (`get_num_tokens`,
`_calc_response_usage`), the agent-thought database lookup and the
conversation/message attributes — are supplied through `PipelineCfg`.
`_save_message` persists the final record through external collaborators
(database commit, event signal); it is modelled as appending the result it
was called with to a list of saved records, which is what the claims about
finalization observe. -/

/-- Values stored in a response dict: strings, integers, lists of resource
descriptors, and nested dicts.  The only nested dicts the pipeline builds
are metadata dicts whose values are resource-descriptor lists, so nested
dict values are modelled as such lists. -/
inductive RVal where
  | strR (v : String)
  | intR (v : Int)
  | listR (xs : List String)
  | dictR (kvs : List (String × List String))
deriving DecidableEq, Repr

/-- First-match lookup in a response dict (Python dict indexing; `none` is a
`KeyError`). -/
def rGet : List (String × RVal) → String → Option RVal
  | [], _ => none
  | (k, v) :: rest, key => if k = key then some v else rGet rest key

/-- The `TaskState` entity (lines 27-32): the accumulated `llm_result` plus
the metadata dict.  The only metadata key the pipeline writes is
`retriever_resources`, so the dict is modelled by the optional value at that
key; the Python truthiness test `if self._task_state.metadata:` corresponds
to the option being `some`. -/
structure TaskState where
  llm_result : LLMRes
  metadata : Option (List String)
deriving DecidableEq, Repr

/-- The metadata dict rendered into a response. -/
def metadataDict (st : TaskState) : List (String × List String) :=
  match st.metadata with
  | some rs => [("retriever_resources", rs)]
  | none => []

/-- The initial `TaskState` built in `GenerateTaskPipeline.__init__`
(lines 55-75): empty prompt messages, empty assistant content, zero usage. -/
def initialTaskState (model : String) : TaskState :=
  { llm_result :=
      { model := model, prompt_messages := [],
        message := { content := "" },
        usage := { prompt_tokens := 0, completion_tokens := 0,
                   total_tokens := 0, total_price := 0 } },
    metadata := none }

/-- An agent-thought record as read back from the database
(`MessageAgentThought`). -/
structure AgentThoughtRec where
  id : String
  position : Nat
  thought : String
  tool : String
  tool_input : String
deriving DecidableEq, Repr

/-- The pipeline's fixed context: conversation/message attributes and the
external collaborators.  `get_num_tokens_prompt` and `get_num_tokens_msg`
stand for `model_instance.get_num_tokens` on the prompt messages and on the
assembled message, `calc_usage` for `model_instance._calc_response_usage`,
and `thought_lookup` for the `MessageAgentThought` database query. -/
structure PipelineCfg where
  task_id : String
  message_id : String
  conversation_id : String
  conversation_mode : String
  created_at : Int
  get_num_tokens_prompt : List PromptMsg → Nat
  get_num_tokens_msg : AssistantMsg → Nat
  calc_usage : Nat → Nat → Usage
  thought_lookup : String → Option AgentThoughtRec

/-- Translation of `GenerateTaskPipeline._handle_error` (lines 280-294). -/
inductive TranslatedErr where
  | invokeAuthError (msg : String)
  | invokeError (msg : String)
  | valueError (msg : String)
  | wrapped (msg : String)
deriving DecidableEq, Repr

/-- The error translation: `InvokeAuthorizationError` is sanitized,
`InvokeError` and `ValueError` pass through, anything else is wrapped with
its `description` when present, else its string form. -/
def handle_error : ErrKind → TranslatedErr
  | .invokeAuthError => TranslatedErr.invokeAuthError "Incorrect API key provided"
  | .invokeError m => TranslatedErr.invokeError m
  | .valueError m => TranslatedErr.valueError m
  | .otherError d s => TranslatedErr.wrapped (d.getD s)

/-- An item of the streaming output: either a wire frame built from a
response dict (wrapped by `_yield_response` for the transport, modelled as
the dict itself), or the literal ping frame `event: ping`. -/
inductive StreamItem where
  | dataItem (response : List (String × RVal))
  | pingItem
deriving DecidableEq, Repr

/-- Whether a stream item is a `message_end` frame. -/
def StreamItem.isMessageEndFrame : StreamItem → Bool
  | .dataItem resp => rGet resp "event" == some (RVal.strR "message_end")
  | .pingItem => false

/-- The accumulator threaded through the streaming loop: the task state, the
frames emitted so far, and the results passed to `_save_message` so far. -/
structure StreamAcc where
  st : TaskState
  frames : List StreamItem
  saved : List LLMRes
deriving DecidableEq, Repr

/-- The optional `conversation_id` entry appended to every frame in chat
mode (`if self._conversation.mode == 'chat'`). -/
def chatEntry (cfg : PipelineCfg) : List (String × RVal) :=
  if cfg.conversation_mode = "chat"
  then [("conversation_id", RVal.strR cfg.conversation_id)]
  else []

/-- The `message` frame built by `_handle_chunk` (lines 261-278). -/
def chunkResponse (cfg : PipelineCfg) (text : String) : List (String × RVal) :=
  [("event", RVal.strR "message"),
   ("task_id", RVal.strR cfg.task_id),
   ("message_id", RVal.strR cfg.message_id),
   ("answer", RVal.strR text),
   ("created_at", RVal.intR cfg.created_at)] ++ chatEntry cfg

/-- The `message_replace` frame built for a `QueueMessageReplaceEvent`
(lines 214-226). -/
def replaceResponse (cfg : PipelineCfg) (text : String) : List (String × RVal) :=
  [("event", RVal.strR "message_replace"),
   ("task_id", RVal.strR cfg.task_id),
   ("message_id", RVal.strR cfg.message_id),
   ("answer", RVal.strR text),
   ("created_at", RVal.intR cfg.created_at)] ++ chatEntry cfg

/-- The `agent_thought` frame (lines 186-199). -/
def agentThoughtResponse (cfg : PipelineCfg) (th : AgentThoughtRec) :
    List (String × RVal) :=
  [("event", RVal.strR "agent_thought"),
   ("id", RVal.strR th.id),
   ("task_id", RVal.strR cfg.task_id),
   ("message_id", RVal.strR cfg.message_id),
   ("position", RVal.intR th.position),
   ("thought", RVal.strR th.thought),
   ("tool", RVal.strR th.tool),
   ("tool_input", RVal.strR th.tool_input),
   ("created_at", RVal.intR cfg.created_at)] ++ chatEntry cfg

/-- The terminal branch of the streaming loop (lines 134-175): on
`QueueMessageEndEvent` adopt the event's result; on `QueueStopEvent` compute
the token counts of the accumulated state through the model instance and
transform the usage; then `_save_message` and emit the `message_end` frame.
The loop continues afterwards — the source has no `break` or `return`
here. -/
def messageEndResponse (cfg : PipelineCfg) (st1 : TaskState) :
    List (String × RVal) :=
  [("event", RVal.strR "message_end"),
   ("task_id", RVal.strR cfg.task_id),
   ("id", RVal.strR cfg.message_id)] ++ chatEntry cfg ++
  (match st1.metadata with
   | some _ => [("metadata", RVal.dictR (metadataDict st1))]
   | none => [])

/-- The state/save/frame effect of the terminal branch (continuation of the
doc comment on `messageEndResponse`). -/
def terminalHandle (cfg : PipelineCfg) (acc : StreamAcc)
    (endResult : Option LLMRes) : StreamAcc :=
  let st1 : TaskState :=
    match endResult with
    | some r => { acc.st with llm_result := r }
    | none =>
      let prompt_tokens := cfg.get_num_tokens_prompt acc.st.llm_result.prompt_messages
      let completion_tokens := cfg.get_num_tokens_msg acc.st.llm_result.message
      { acc.st with llm_result :=
          { acc.st.llm_result with usage := cfg.calc_usage prompt_tokens completion_tokens } }
  let saved1 := acc.saved ++ [st1.llm_result]
  { st := st1,
    frames := acc.frames ++ [StreamItem.dataItem (messageEndResponse cfg st1)],
    saved := saved1 }

/-- One drained event of `GenerateTaskPipeline._process_stream_response`
(lines 124-230), in the source's branch order: error events raise the
translated error; `QueueStopEvent`/`QueueMessageEndEvent` run the terminal
branch; `QueueRetrieverResourcesEvent` stores the resources in the metadata;
`QueueAgentThoughtEvent` emits an `agent_thought` frame when the record is
found; `QueueMessageEvent` skips a `None` delta, fills the prompt messages
when still empty, appends the delta to the accumulated content and emits a
`message` frame; `QueueMessageReplaceEvent` emits a `message_replace` frame;
`QueuePingEvent` emits the ping frame. -/
def streamStep (cfg : PipelineCfg) (acc : StreamAcc) (m : QueueMsg) :
    Except TranslatedErr StreamAcc :=
  match m.event with
  | AppEvent.errorEv k => Except.error (handle_error k)
  | AppEvent.stopEv => Except.ok (terminalHandle cfg acc none)
  | AppEvent.messageEndEv r => Except.ok (terminalHandle cfg acc (some r))
  | AppEvent.retrieverResourcesEv rs =>
    Except.ok { acc with st := { acc.st with metadata := some rs } }
  | AppEvent.agentThoughtEv tid =>
    match cfg.thought_lookup tid with
    | some th =>
      Except.ok { acc with frames := acc.frames ++ [StreamItem.dataItem (agentThoughtResponse cfg th)] }
    | none => Except.ok acc
  | AppEvent.messageEv c =>
    match c.delta.content with
    | none => Except.ok acc
    | some delta_text =>
      let st1 : TaskState :=
        if acc.st.llm_result.prompt_messages.isEmpty then
          { acc.st with llm_result := { acc.st.llm_result with prompt_messages := c.prompt_messages } }
        else acc.st
      let st2 : TaskState :=
        { st1 with llm_result := { st1.llm_result with
            message := { content := st1.llm_result.message.content ++ delta_text } } }
      Except.ok
        { acc with
          st := st2,
          frames := acc.frames ++ [StreamItem.dataItem (chunkResponse cfg delta_text)] }
  | AppEvent.messageReplaceEv text =>
    Except.ok { acc with frames := acc.frames ++ [StreamItem.dataItem (replaceResponse cfg text)] }
  | AppEvent.pingEv =>
    Except.ok { acc with frames := acc.frames ++ [StreamItem.pingItem] }

/-- The streaming loop over a drained message sequence from a given
accumulator; an error event's translated exception propagates out. -/
def process_stream_aux (cfg : PipelineCfg) :
    StreamAcc → List QueueMsg → Except TranslatedErr StreamAcc
  | acc, [] => Except.ok acc
  | acc, m :: rest =>
    match streamStep cfg acc m with
    | Except.error e => Except.error e
    | Except.ok acc2 => process_stream_aux cfg acc2 rest

/-- The streaming assembler over a drained message sequence, from an empty
frame/save history. -/
def process_stream_response (cfg : PipelineCfg) (st : TaskState)
    (msgs : List QueueMsg) : Except TranslatedErr StreamAcc :=
  process_stream_aux cfg { st := st, frames := [], saved := [] } msgs

/-- Errors escaping the blocking assembler: a translated error event, or a
Python `KeyError` from the response-dict indexing. -/
inductive BlockErr where
  | appErr (e : TranslatedErr)
  | pyErr (e : PyExn)
deriving DecidableEq, Repr

/-- Translation of `GenerateTaskPipeline._process_blocking_response`
(lines 88-122), one drained event at a time: error events raise;
`QueueRetrieverResourcesEvent` stores the resources in the metadata;
`QueueMessageEndEvent` saves the message, builds the response dict
`event/task_id/id/mode/answer/metadata/created_at`, appends
`conversation_id` in chat mode, and — when the task state's metadata is
non-empty — executes `response['data']['metadata'] = ...`, whose first index
raises `KeyError` because the response has no `data` key; every other event
is skipped.  A `none` result is the implicit Python `None` returned when the
listener's sentinel ends the loop without a `QueueMessageEndEvent`. -/
def process_blocking_aux (cfg : PipelineCfg) (st : TaskState) (saved : List LLMRes) :
    List QueueMsg →
    Except BlockErr (Option (List (String × RVal)) × TaskState × List LLMRes)
  | [] => Except.ok (none, st, saved)
  | m :: rest =>
    match m.event with
    | AppEvent.errorEv k => Except.error (BlockErr.appErr (handle_error k))
    | AppEvent.retrieverResourcesEv rs =>
      process_blocking_aux cfg { st with metadata := some rs } saved rest
    | AppEvent.messageEndEv r =>
      let saved1 := saved ++ [r]
      let response :=
        [("event", RVal.strR "message"),
         ("task_id", RVal.strR cfg.task_id),
         ("id", RVal.strR cfg.message_id),
         ("mode", RVal.strR cfg.conversation_mode),
         ("answer", RVal.strR r.message.content),
         ("metadata", RVal.dictR []),
         ("created_at", RVal.intR cfg.created_at)]
      let response :=
        if cfg.conversation_mode = "chat"
        then response ++ [("conversation_id", RVal.strR cfg.conversation_id)]
        else response
      match st.metadata with
      | some _ =>
        (match rGet response "data" with
         | none => Except.error (BlockErr.pyErr (PyExn.keyError "data"))
         | some _ => Except.ok (some response, st, saved1))
      | none => Except.ok (some response, st, saved1)
    | _ => process_blocking_aux cfg st saved rest

/-- The blocking assembler over a drained message sequence. -/
def process_blocking_response (cfg : PipelineCfg) (st : TaskState)
    (msgs : List QueueMsg) :
    Except BlockErr (Option (List (String × RVal)) × TaskState × List LLMRes) :=
  process_blocking_aux cfg st [] msgs

/-! ### Concrete instances used by the theorems -/

/-- A queue manager for task `t1` owned by end user `u1`, with an empty
queue. -/
def qmEx : QMState :=
  { task_id := "t1", user_id := "u1", invoke_from := InvokeFrom.serviceApi,
    conversation_id := "c1", app_mode := "chat", message_id := "m1", q := [] }

/-- The envelope `publish` builds around a given event for `qmEx`. -/
def mkMsg (e : AppEvent) : QueueMsg :=
  { task_id := "t1", message_id := "m1", conversation_id := "c1",
    app_mode := "chat", event := e }

/-- The Redis slice right after `__init__` for `qmEx`: ownership record
written, no stop flag. -/
def redisEx : RedisState :=
  initTaskBelong InvokeFrom.serviceApi "u1" { belong := none, stopped := none }

/-- Listener start state for a producer that never publishes: empty queue,
no stop flag, fresh lifetime budget of 600. -/
def silentInit : ListenSt :=
  { qm := qmEx, redis := redisEx, t := 600, tick := 0 }

/-- Listener start state after a legitimate `set_stop_flag` call: the stop
flag is set before the first iteration. -/
def flaggedInit : ListenSt :=
  { qm := qmEx, redis := set_stop_flag InvokeFrom.serviceApi "u1" redisEx,
    t := 600, tick := 0 }

/-- A concrete pipeline context: chat mode, trivial external collaborators
(token counts zero, no agent thoughts in the database). -/
def cfgEx : PipelineCfg :=
  { task_id := "t1", message_id := "m1", conversation_id := "c1",
    conversation_mode := "chat", created_at := 100,
    get_num_tokens_prompt := fun _ => 0,
    get_num_tokens_msg := fun _ => 0,
    calc_usage := fun p c =>
      { prompt_tokens := p, completion_tokens := c,
        total_tokens := p + c, total_price := 0 },
    thought_lookup := fun _ => none }

/-- The pipeline's initial task state for a concrete model name. -/
def stEx : TaskState := initialTaskState "gpt"

/-- A concrete final result carried by a `QueueMessageEndEvent`. -/
def resEx : LLMRes :=
  { model := "gpt", prompt_messages := [{ role := "user", content := "q" }],
    message := { content := "final" },
    usage := { prompt_tokens := 1, completion_tokens := 2,
               total_tokens := 3, total_price := 0 } }

/-- A chunk envelope carrying only a delta text (no prompt messages). -/
def chunkMsgOf (t : String) : QueueMsg :=
  mkMsg (AppEvent.messageEv { prompt_messages := [], delta := { content := some t } })

/-- A chunk envelope for an arbitrary chunk. -/
def mkChunkMsg (c : LLMChunk) : QueueMsg := mkMsg (AppEvent.messageEv c)

/-- Two distinct prompt messages, used to distinguish which chunk filled the
task state's prompt messages. -/
def pA : PromptMsg := { role := "user", content := "A" }

/-- Second distinct prompt message (see `pA`). -/
def pB : PromptMsg := { role := "user", content := "B" }

/-- The first non-skipped chunk that carries prompt messages: chunks whose
delta text is `None` are skipped by the loop before the prompt-message
check, and a chunk with an empty prompt-message list leaves the stored list
empty.  This is the characterization (stated from the amended claim) that
the streaming loop's prompt-message bookkeeping is proved to satisfy. -/
def firstCarrier : List LLMChunk → List PromptMsg
  | [] => []
  | c :: rest =>
    match c.delta.content with
    | none => firstCarrier rest
    | some _ =>
      if c.prompt_messages.isEmpty then firstCarrier rest else c.prompt_messages

/-- Concatenation of a list of delta texts in order (the spec-side notion of
accumulating deltas by concatenation). -/
def concatAll : List String → String
  | [] => ""
  | t :: ts => t ++ concatAll ts

/-! ### Evaluation lemmas for the payload scan and `publish`

Field-less events (`Ping`, `Stop`) produce an empty dict, over which the
scan's loop does nothing, so they pass; every event with at least one field
makes the scan call `.dict()` on a plain value, which raises
`AttributeError`. -/

theorem scanEvent_ping_ok : scanEvent AppEvent.pingEv = Except.ok () := rfl

theorem scanEvent_stop_ok : scanEvent AppEvent.stopEv = Except.ok () := rfl

theorem scanEvent_error_attr (k : ErrKind) :
    scanEvent (AppEvent.errorEv k) = Except.error (PyExn.attributeError "dict") := rfl

theorem scanEvent_messageEnd_attr (r : LLMRes) :
    scanEvent (AppEvent.messageEndEv r) = Except.error (PyExn.attributeError "dict") := rfl

theorem scanEvent_retriever_attr (rs : List String) :
    scanEvent (AppEvent.retrieverResourcesEv rs) =
      Except.error (PyExn.attributeError "dict") := rfl

theorem scanEvent_agentThought_attr (tid : String) :
    scanEvent (AppEvent.agentThoughtEv tid) =
      Except.error (PyExn.attributeError "dict") := rfl

theorem scanEvent_chunk_attr (c : LLMChunk) :
    scanEvent (AppEvent.messageEv c) = Except.error (PyExn.attributeError "dict") := rfl

theorem scanEvent_replace_attr (t : String) :
    scanEvent (AppEvent.messageReplaceEv t) =
      Except.error (PyExn.attributeError "dict") := rfl

theorem publish_snd_ping (s : QMState) : (publish s AppEvent.pingEv).snd = none := rfl

theorem publish_snd_stop (s : QMState) :
    (publish s AppEvent.stopEv).snd = some PubExn.conversationTaskStopped := rfl

theorem publish_snd_error (s : QMState) (k : ErrKind) :
    (publish s (AppEvent.errorEv k)).snd =
      some (PubExn.scanExn (PyExn.attributeError "dict")) := rfl

theorem publish_snd_messageEnd (s : QMState) (r : LLMRes) :
    (publish s (AppEvent.messageEndEv r)).snd =
      some (PubExn.scanExn (PyExn.attributeError "dict")) := rfl

theorem publish_snd_retriever (s : QMState) (rs : List String) :
    (publish s (AppEvent.retrieverResourcesEv rs)).snd =
      some (PubExn.scanExn (PyExn.attributeError "dict")) := rfl

theorem publish_snd_agentThought (s : QMState) (tid : String) :
    (publish s (AppEvent.agentThoughtEv tid)).snd =
      some (PubExn.scanExn (PyExn.attributeError "dict")) := rfl

theorem publish_snd_chunk (s : QMState) (c : LLMChunk) :
    (publish s (AppEvent.messageEv c)).snd =
      some (PubExn.scanExn (PyExn.attributeError "dict")) := rfl

theorem publish_snd_replace (s : QMState) (t : String) :
    (publish s (AppEvent.messageReplaceEv t)).snd =
      some (PubExn.scanExn (PyExn.attributeError "dict")) := rfl

/-! ### Frame-kind lemmas -/

theorem isMEF_messageEnd (cfg : PipelineCfg) (st : TaskState) :
    (StreamItem.dataItem (messageEndResponse cfg st)).isMessageEndFrame = true := by
  simp [StreamItem.isMessageEndFrame, messageEndResponse, rGet]

theorem isMEF_chunk (cfg : PipelineCfg) (t : String) :
    (StreamItem.dataItem (chunkResponse cfg t)).isMessageEndFrame = false := by
  simp [StreamItem.isMessageEndFrame, chunkResponse, rGet]

theorem isMEF_replace (cfg : PipelineCfg) (t : String) :
    (StreamItem.dataItem (replaceResponse cfg t)).isMessageEndFrame = false := by
  simp [StreamItem.isMessageEndFrame, replaceResponse, rGet]

theorem isMEF_agentThought (cfg : PipelineCfg) (th : AgentThoughtRec) :
    (StreamItem.dataItem (agentThoughtResponse cfg th)).isMessageEndFrame = false := by
  simp [StreamItem.isMessageEndFrame, agentThoughtResponse, rGet]

theorem isMEF_ping : StreamItem.pingItem.isMessageEndFrame = false := rfl

/-! ### Structural lemmas about the streaming and blocking loops -/

/-- Over any error-free drained sequence, the streaming loop succeeds, and
both the number of `_save_message` calls and the number of `message_end`
frames it adds equal the number of terminal events in the sequence. -/
theorem stream_counts (cfg : PipelineCfg) :
    ∀ (msgs : List QueueMsg) (acc : StreamAcc),
      (∀ m ∈ msgs, m.event.isErrorEvent = false) →
      ∃ out, process_stream_aux cfg acc msgs = Except.ok out ∧
        out.saved.length =
          acc.saved.length + msgs.countP (fun m => m.event.isTerminalEvent) ∧
        (out.frames.filter StreamItem.isMessageEndFrame).length =
          (acc.frames.filter StreamItem.isMessageEndFrame).length +
            msgs.countP (fun m => m.event.isTerminalEvent) := by
  intro msgs
  induction msgs with
  | nil =>
    intro acc _
    exact ⟨acc, rfl, by simp, by simp⟩
  | cons m rest ih =>
    intro acc h
    obtain ⟨tid0, mid0, cid0, am0, ev⟩ := m
    have hm : AppEvent.isErrorEvent ev = false := h _ (List.mem_cons_self _ _)
    have hr : ∀ x ∈ rest, x.event.isErrorEvent = false :=
      fun x hx => h x (List.mem_cons_of_mem _ hx)
    cases ev with
    | errorEv k => simp [AppEvent.isErrorEvent] at hm
    | stopEv =>
      obtain ⟨out, ho, hs, hf⟩ := ih (terminalHandle cfg acc none) hr
      refine ⟨out, by simpa [process_stream_aux, streamStep] using ho, ?_, ?_⟩
      · simp only [hs, terminalHandle, List.length_append, List.countP_cons,
          AppEvent.isTerminalEvent, QueueMsg.event]
        simp; omega
      · simp only [hf, terminalHandle, List.filter_append, List.length_append,
          List.countP_cons, AppEvent.isTerminalEvent, QueueMsg.event]
        simp [isMEF_messageEnd]; omega
    | messageEndEv r =>
      obtain ⟨out, ho, hs, hf⟩ := ih (terminalHandle cfg acc (some r)) hr
      refine ⟨out, by simpa [process_stream_aux, streamStep] using ho, ?_, ?_⟩
      · simp only [hs, terminalHandle, List.length_append, List.countP_cons,
          AppEvent.isTerminalEvent, QueueMsg.event]
        simp; omega
      · simp only [hf, terminalHandle, List.filter_append, List.length_append,
          List.countP_cons, AppEvent.isTerminalEvent, QueueMsg.event]
        simp [isMEF_messageEnd]; omega
    | retrieverResourcesEv rs =>
      obtain ⟨out, ho, hs, hf⟩ := ih { acc with st := { acc.st with metadata := some rs } } hr
      refine ⟨out, by simpa [process_stream_aux, streamStep] using ho, ?_, ?_⟩
      · simp only [hs]
        simp [List.countP_cons, AppEvent.isTerminalEvent]
      · simp only [hf]
        simp [List.countP_cons, AppEvent.isTerminalEvent]
    | agentThoughtEv tid =>
      cases hl : cfg.thought_lookup tid with
      | none =>
        obtain ⟨out, ho, hs, hf⟩ := ih acc hr
        refine ⟨out, by simpa [process_stream_aux, streamStep, hl] using ho, ?_, ?_⟩
        · simp only [hs]
          simp [List.countP_cons, AppEvent.isTerminalEvent]
        · simp only [hf]
          simp [List.countP_cons, AppEvent.isTerminalEvent]
      | some th =>
        obtain ⟨out, ho, hs, hf⟩ :=
          ih { acc with frames := acc.frames ++ [StreamItem.dataItem (agentThoughtResponse cfg th)] } hr
        refine ⟨out, by simpa [process_stream_aux, streamStep, hl] using ho, ?_, ?_⟩
        · simp only [hs]
          simp [List.countP_cons, AppEvent.isTerminalEvent]
        · simp only [hf, List.filter_append, List.length_append]
          simp [isMEF_agentThought, List.countP_cons, AppEvent.isTerminalEvent]
    | messageEv c =>
      cases hd : c.delta.content with
      | none =>
        obtain ⟨out, ho, hs, hf⟩ := ih acc hr
        refine ⟨out, by simpa [process_stream_aux, streamStep, hd] using ho, ?_, ?_⟩
        · simp only [hs]
          simp [List.countP_cons, AppEvent.isTerminalEvent]
        · simp only [hf]
          simp [List.countP_cons, AppEvent.isTerminalEvent]
      | some t =>
        by_cases hpm : acc.st.llm_result.prompt_messages.isEmpty
        all_goals {
          obtain ⟨out, ho, hs, hf⟩ := ih _ hr
          refine ⟨out, by simpa [process_stream_aux, streamStep, hd, hpm] using ho, ?_, ?_⟩
          · simp only [hs]
            simp [List.countP_cons, AppEvent.isTerminalEvent]
          · simp only [hf, List.filter_append, List.length_append]
            simp [isMEF_chunk, List.countP_cons, AppEvent.isTerminalEvent]
        }
    | messageReplaceEv t =>
      obtain ⟨out, ho, hs, hf⟩ :=
        ih { acc with frames := acc.frames ++ [StreamItem.dataItem (replaceResponse cfg t)] } hr
      refine ⟨out, by simpa [process_stream_aux, streamStep] using ho, ?_, ?_⟩
      · simp only [hs]
        simp [List.countP_cons, AppEvent.isTerminalEvent]
      · simp only [hf, List.filter_append, List.length_append]
        simp [isMEF_replace, List.countP_cons, AppEvent.isTerminalEvent]
    | pingEv =>
      obtain ⟨out, ho, hs, hf⟩ :=
        ih { acc with frames := acc.frames ++ [StreamItem.pingItem] } hr
      refine ⟨out, by simpa [process_stream_aux, streamStep] using ho, ?_, ?_⟩
      · simp only [hs]
        simp [List.countP_cons, AppEvent.isTerminalEvent]
      · simp only [hf, List.filter_append, List.length_append]
        simp [isMEF_ping, List.countP_cons, AppEvent.isTerminalEvent]

/-- Streaming over a sequence of delta chunks appends the concatenation of
the deltas to the accumulated content. -/
theorem stream_content_concat (cfg : PipelineCfg) :
    ∀ (texts : List String) (st : TaskState) (fr : List StreamItem) (sv : List LLMRes),
      ∃ out, process_stream_aux cfg { st := st, frames := fr, saved := sv }
          (texts.map chunkMsgOf) = Except.ok out ∧
        out.st.llm_result.message.content =
          st.llm_result.message.content ++ concatAll texts := by
  intro texts
  induction texts with
  | nil =>
    intro st fr sv
    exact ⟨_, rfl, by simp [concatAll, String.append_empty]⟩
  | cons t ts ih =>
    intro st fr sv
    by_cases hpm : st.llm_result.prompt_messages.isEmpty
    all_goals {
      obtain ⟨out, ho, hc⟩ := ih _ (fr ++ [StreamItem.dataItem (chunkResponse cfg t)]) sv
      refine ⟨out, ?_, ?_⟩
      · simpa [process_stream_aux, streamStep, chunkMsgOf, mkMsg, hpm] using ho
      · rw [hc]
        simp [concatAll, String.append_assoc]
    }

/-- The blocking loop skips chunk events entirely: the task state, the saved
records and the (absent) response are unchanged. -/
theorem blocking_ignores_chunks (cfg : PipelineCfg) :
    ∀ (texts : List String) (st : TaskState) (saved : List LLMRes),
      process_blocking_aux cfg st saved (texts.map chunkMsgOf) =
        Except.ok (none, st, saved) := by
  intro texts
  induction texts with
  | nil => intro st saved; rfl
  | cons t ts ih =>
    intro st saved
    simpa [process_blocking_aux, chunkMsgOf, mkMsg] using ih st saved

/-- Once the task state's prompt messages are non-empty, streaming further
chunk events never changes them. -/
theorem stream_pm_preserved (cfg : PipelineCfg) :
    ∀ (chunks : List LLMChunk) (st : TaskState) (fr : List StreamItem) (sv : List LLMRes),
      st.llm_result.prompt_messages.isEmpty = false →
      ∃ out, process_stream_aux cfg { st := st, frames := fr, saved := sv }
          (chunks.map mkChunkMsg) = Except.ok out ∧
        out.st.llm_result.prompt_messages = st.llm_result.prompt_messages := by
  intro chunks
  induction chunks with
  | nil => intro st fr sv _; exact ⟨_, rfl, rfl⟩
  | cons c cs ih =>
    intro st fr sv hpm
    cases hd : c.delta.content with
    | none =>
      obtain ⟨out, ho, hp⟩ := ih st fr sv hpm
      exact ⟨out, by simpa [process_stream_aux, streamStep, mkChunkMsg, mkMsg, hd] using ho, hp⟩
    | some t =>
      obtain ⟨out, ho, hp⟩ :=
        ih { st with llm_result := { st.llm_result with
              message := { content := st.llm_result.message.content ++ t } } }
          (fr ++ [StreamItem.dataItem (chunkResponse cfg t)]) sv (by simpa using hpm)
      refine ⟨out, ?_, by simpa using hp⟩
      simpa [process_stream_aux, streamStep, mkChunkMsg, mkMsg, hd, hpm] using ho

/-- Starting from empty prompt messages, streaming a sequence of chunk
events leaves the prompt messages equal to those of the first chunk that has
a non-`None` delta and a non-empty prompt-message list (`firstCarrier`). -/
theorem stream_pm_characterize (cfg : PipelineCfg) :
    ∀ (chunks : List LLMChunk) (st : TaskState) (fr : List StreamItem) (sv : List LLMRes),
      st.llm_result.prompt_messages = [] →
      ∃ out, process_stream_aux cfg { st := st, frames := fr, saved := sv }
          (chunks.map mkChunkMsg) = Except.ok out ∧
        out.st.llm_result.prompt_messages = firstCarrier chunks := by
  intro chunks
  induction chunks with
  | nil => intro st fr sv h; exact ⟨_, rfl, by simp [firstCarrier, h]⟩
  | cons c cs ih =>
    intro st fr sv hpm
    have hempty : st.llm_result.prompt_messages.isEmpty = true := by simp [hpm]
    cases hd : c.delta.content with
    | none =>
      obtain ⟨out, ho, hp⟩ := ih st fr sv hpm
      refine ⟨out, by simpa [process_stream_aux, streamStep, mkChunkMsg, mkMsg, hd] using ho, ?_⟩
      simpa [firstCarrier, hd] using hp
    | some t =>
      by_cases hc : c.prompt_messages.isEmpty
      · have hcn : c.prompt_messages = [] := by simpa [List.isEmpty_iff] using hc
        obtain ⟨out, ho, hp⟩ :=
          ih { st with llm_result := { st.llm_result with
                prompt_messages := c.prompt_messages,
                message := { content := st.llm_result.message.content ++ t } } }
            (fr ++ [StreamItem.dataItem (chunkResponse cfg t)]) sv (by simpa using hcn)
        refine ⟨out, ?_, ?_⟩
        · simpa [process_stream_aux, streamStep, mkChunkMsg, mkMsg, hd, hempty] using ho
        · simpa [firstCarrier, hd, hc] using hp
      · obtain ⟨out, ho, hp⟩ :=
          stream_pm_preserved cfg cs
            { st with llm_result := { st.llm_result with
                prompt_messages := c.prompt_messages,
                message := { content := st.llm_result.message.content ++ t } } }
            (fr ++ [StreamItem.dataItem (chunkResponse cfg t)]) sv
            (by simpa using hc)
        refine ⟨out, ?_, ?_⟩
        · simpa [process_stream_aux, streamStep, mkChunkMsg, mkMsg, hd, hempty] using ho
        · simpa [firstCarrier, hd, hc] using hp

/-- In one listener iteration with no stop flag present, a ping is published
exactly when the decremented budget is still positive and divisible by
ten. -/
theorem listenIter_pinged (s : ListenSt) (h : s.redis.stopped = none) :
    (listenIter s).pinged = true ↔ (0 < s.t - 1 ∧ (s.t - 1) % 10 = 0) := by
  have hstop : is_stopped s.redis = (false, s.redis) := by simp [is_stopped, h]
  by_cases h1 : s.t - 1 ≤ 0
  · rcases hq : s.qm.q with _ | ⟨mh, rest⟩
    · simp only [listenIter, hq, hstop, if_pos h1]
      simp [IterRes.pinged]
      omega
    · cases mh <;>
      · simp only [listenIter, hq, hstop, if_pos h1]
        simp [IterRes.pinged]
        omega
  · rcases hq : s.qm.q with _ | ⟨mh, rest⟩
    · simp only [listenIter, hq, hstop, if_neg h1]
      simp [IterRes.pinged]
    · cases mh <;>
      · simp only [listenIter, hq, hstop, if_neg h1]
        simp [IterRes.pinged]

/-! ### The claims -/

/-- Claim C2 (code bug): the claim states that when the lifetime countdown
reaches 0 or the stop flag is observed, the listener enqueues a `Stop`
envelope and then the end-of-stream sentinel (`stop_listen`), so the
consumer drains a final `Stop` frame and the generator returns normally.
On the code this fails: `self.publish(QueueStopEvent())` inside `listen`
raises `ConversationTaskStoppedException` right after enqueuing the stop
envelope, so `self.stop_listen()` on the next line is unreachable.  This
theorem evaluates the failing input (a producer that never publishes, no
stop flag): after the 600 ticks the run ends by the raised exception, the
final queue still holds the undrained `Stop` envelope, no sentinel was ever
enqueued, and the consumer drained only the 59 keepalive pings — never a
`Stop` frame.  This contradicts the code's own comment (lines 59-60), which
says two messages are published so the client receives the stop signal and
then stops listening. -/
theorem C2_listener_raises_before_sentinel :
    (listenRun 1000 silentInit).endK = RunEnd.cancelRaise ∧
    (listenRun 1000 silentInit).final.qm.q = [some (mkMsg AppEvent.stopEv)] ∧
    (listenRun 1000 silentInit).yields = List.replicate 59 (mkMsg AppEvent.pingEv) :=
  ⟨rfl, rfl, rfl⟩

/-- Claim C3 (counterexample): cancellation has taken effect — the listener
observed the stop flag, enqueued the `Stop` envelope and died by the raised
exception — yet the producer's next `publish` of a non-`Stop` event (a ping)
raises nothing (`snd = none`) and the event is enqueued normally behind the
stop envelope.  The claim's statement that any publish after cancellation
raises the `TaskCancelled` signal is therefore false on the code. -/
theorem C3_counterexample :
    (listenRun 10 flaggedInit).endK = RunEnd.cancelRaise ∧
    (publish (listenRun 10 flaggedInit).final.qm AppEvent.pingEv).snd = none ∧
    (publish (listenRun 10 flaggedInit).final.qm AppEvent.pingEv).fst.q =
      [some (mkMsg AppEvent.stopEv), some (mkMsg AppEvent.pingEv)] :=
  ⟨rfl, rfl, rfl⟩

/-- Claim C3 (amended): `publish` raises the `TaskCancelled` control signal
(`ConversationTaskStoppedException`) if and only if the event being
published is itself a `Stop` event — the cancellation state of the task
plays no role, so no non-`Stop` publish after cancellation ever raises it.
First conjunct: the iff, over every state and event (for payload-carrying
events the scan's `AttributeError` is what `publish` raises instead, per C5,
so they too never raise `TaskCancelled`).  Second conjunct: a field-less
non-`Stop` event (a `Ping`) published in any state — in particular after
cancellation — raises nothing and is enqueued normally. -/
theorem C3_raise_iff_stop_event :
    (∀ (s : QMState) (e : AppEvent),
      (publish s e).snd = some PubExn.conversationTaskStopped ↔ e.isStopEvent = true) ∧
    (∀ s : QMState, publish s AppEvent.pingEv =
      ({ s with q := s.q ++
          [some { task_id := s.task_id, message_id := s.message_id,
                  conversation_id := s.conversation_id, app_mode := s.app_mode,
                  event := AppEvent.pingEv }] }, none)) := by
  constructor
  · intro s e
    cases e <;>
      simp [publish_snd_ping, publish_snd_stop, publish_snd_error, publish_snd_messageEnd,
        publish_snd_retriever, publish_snd_agentThought, publish_snd_chunk,
        publish_snd_replace, AppEvent.isStopEvent]
  · intro s
    rfl

/-- Claim C9: while the lifetime budget remains positive, a ping is
published at every 10th iteration of the poll loop and at no other tick, and
none after the budget is exhausted.  First conjunct: in the canonical run
with a producer that never publishes, the recorded ping ticks are exactly
10, 20, ..., 590 (and the run ends at tick 600 without a further ping).
Second conjunct: at any reachable listener state (budget = 600 - tick) with
no stop flag pending, the next iteration publishes a ping exactly when its
tick index is a positive multiple of 10 below 600. -/
theorem C9_ping_schedule :
    (listenRun 1000 silentInit).pingTicks = (List.range 59).map (fun i => 10 * i + 10) ∧
    (∀ s : ListenSt, s.redis.stopped = none → s.t = 600 - (s.tick : Int) →
      ((listenIter s).pinged = true ↔ ((s.tick + 1) % 10 = 0 ∧ s.tick + 1 < 600))) := by
  refine ⟨by decide, ?_⟩
  intro s h ht
  rw [listenIter_pinged s h, ht]
  omega

/-- Witness for C9: at the state reached after nine silent ticks
(budget 591), the tenth iteration publishes a ping. -/
theorem C9_witness :
    (listenIter { qm := qmEx, redis := redisEx, t := 591, tick := 9 }).pinged = true := by
  have h := C9_ping_schedule.2 { qm := qmEx, redis := redisEx, t := 591, tick := 9 }
    rfl (by decide)
  exact h.mpr (by decide)

/-- Claim C1 (counterexample): when the streaming assembler drains a
`MessageEnd` event and then a later `Stop` event, `_save_message` runs twice
and two `message_end` frames are emitted — the claim's at-most-once
finalization is false, because the terminal branch of
`_process_stream_response` neither breaks out of the loop nor records that
it already finalized. -/
theorem C1_counterexample :
    (process_stream_response cfgEx stEx
        [mkMsg (AppEvent.messageEndEv resEx), mkMsg AppEvent.stopEv]).map
        (fun a => (a.saved.length, (a.frames.filter StreamItem.isMessageEndFrame).length)) =
      Except.ok (2, 2) ∧
    (process_stream_response cfgEx stEx
        [mkMsg (AppEvent.messageEndEv resEx), mkMsg AppEvent.stopEv]).map
        (fun a => decide (a.saved.length ≤ 1)) = Except.ok false :=
  ⟨rfl, rfl⟩

/-- Claim C1 (amended): streaming finalization runs once per drained
terminal event, not at most once per task: over any error-free drained
sequence, the number of `_save_message` invocations and the number of
`message_end` frames both equal the number of terminal (`Stop` or
`MessageEnd`) events drained, so a second terminal event before the sentinel
re-triggers `_save_message` and a second `message_end` frame. -/
theorem C1_finalization_per_terminal (cfg : PipelineCfg) (st : TaskState)
    (msgs : List QueueMsg) (h : ∀ m ∈ msgs, m.event.isErrorEvent = false) :
    ∃ out, process_stream_response cfg st msgs = Except.ok out ∧
      out.saved.length = msgs.countP (fun m => m.event.isTerminalEvent) ∧
      (out.frames.filter StreamItem.isMessageEndFrame).length =
        msgs.countP (fun m => m.event.isTerminalEvent) := by
  obtain ⟨out, ho, hs, hf⟩ :=
    stream_counts cfg msgs { st := st, frames := [], saved := [] } h
  exact ⟨out, ho, by simpa using hs, by simpa using hf⟩

/-- Witness for C1: the amended theorem applied to the concrete two-terminal
drain, giving two saves and two `message_end` frames. -/
theorem C1_witness :
    ∃ out, process_stream_response cfgEx stEx
        [mkMsg (AppEvent.messageEndEv resEx), mkMsg AppEvent.stopEv] = Except.ok out ∧
      out.saved.length = 2 ∧
      (out.frames.filter StreamItem.isMessageEndFrame).length = 2 := by
  obtain ⟨out, ho, hs, hf⟩ := C1_finalization_per_terminal cfgEx stEx
    [mkMsg (AppEvent.messageEndEv resEx), mkMsg AppEvent.stopEv] (by decide)
  exact ⟨out, ho, by rw [hs]; decide, by rw [hf]; decide⟩

/-- Claim C4: `set_stop_flag` writes the stop flag with TTL 600 if and only
if an ownership record exists for the task and the requester's prefixed
identity (`account-id` for `EXPLORE`/`DEBUGGER` callers, `end-user-id`
otherwise) equals the recorded owner; when the record is absent or the
identity differs, the Redis state is returned unchanged, so the listener can
never observe a stop flag from such a request. -/
theorem C4_stop_flag_authorization (invoke_from : InvokeFrom) (user_id : String)
    (r : RedisState) :
    ((∃ ttl, r.belong = some (userTag invoke_from ++ "-" ++ user_id, ttl)) →
      set_stop_flag invoke_from user_id r = { r with stopped := some (1, 600) }) ∧
    (¬(∃ ttl, r.belong = some (userTag invoke_from ++ "-" ++ user_id, ttl)) →
      set_stop_flag invoke_from user_id r = r) := by
  constructor
  · rintro ⟨ttl, hb⟩
    simp [set_stop_flag, hb]
  · intro hno
    unfold set_stop_flag
    cases hb : r.belong with
    | none => rfl
    | some ow =>
      obtain ⟨owner, ttl⟩ := ow
      have hne : owner ≠ userTag invoke_from ++ "-" ++ user_id :=
        fun he => hno ⟨ttl, by rw [hb, he]⟩
      simp [hne]

/-- Witness for C4: the task owner (an end user through the service API) can
set the stop flag, while an `EXPLORE` caller with the same user id computes
a different prefixed identity and is a no-op. -/
theorem C4_witness :
    set_stop_flag InvokeFrom.serviceApi "u1" redisEx =
      { redisEx with stopped := some (1, 600) } ∧
    set_stop_flag InvokeFrom.explore "u1" redisEx = redisEx := by
  constructor
  · exact (C4_stop_flag_authorization InvokeFrom.serviceApi "u1" redisEx).1 ⟨1800, rfl⟩
  · refine (C4_stop_flag_authorization InvokeFrom.explore "u1" redisEx).2 ?_
    rintro ⟨ttl, h⟩
    simp [redisEx, initTaskBelong, userTag] at h

/-- Claim C5 (code bug): the claim says the recursive payload scan passes
model-free events (which are then enqueued) and fails model-carrying events
with the scan's `TypeError`.  On the code, `_check_for_sqlalchemy_models`
calls `.dict()` on every nested value during recursion; plain payload values
(strings, converted dicts, lists, foreign objects) have no `dict` attribute,
so the scan raises `AttributeError` for every event whose pydantic dict is
non-empty — model-free or not — before the model check is ever reached, and
`publish` fails without enqueuing.  The conjuncts: every payload-carrying
event variant fails the scan with `AttributeError`; a payload that does
contain a SQLAlchemy record also fails with `AttributeError` (never the
intended `TypeError`); `publish` of a harmless `MessageReplace` leaves the
state unchanged and raises the `AttributeError`. -/
theorem C5_scan_attribute_error :
    (∀ t : String, scanEvent (AppEvent.messageReplaceEv t) =
      Except.error (PyExn.attributeError "dict")) ∧
    (∀ c : LLMChunk, scanEvent (AppEvent.messageEv c) =
      Except.error (PyExn.attributeError "dict")) ∧
    (∀ r : LLMRes, scanEvent (AppEvent.messageEndEv r) =
      Except.error (PyExn.attributeError "dict")) ∧
    (∀ rs : List String, scanEvent (AppEvent.retrieverResourcesEv rs) =
      Except.error (PyExn.attributeError "dict")) ∧
    check_for_sqlalchemy_models 100 (PyVal.pyModel [("data", PyVal.obj true)]) =
      Except.error (PyExn.attributeError "dict") ∧
    publish qmEx (AppEvent.messageReplaceEv "hi") =
      (qmEx, some (PubExn.scanExn (PyExn.attributeError "dict"))) :=
  ⟨scanEvent_replace_attr, scanEvent_chunk_attr, scanEvent_messageEnd_attr,
    scanEvent_retriever_attr, rfl, rfl⟩

/-- Claim C6 (counterexample): publishing the deltas Hel, lo, world gives
the blocking assembler an unchanged empty accumulated text (it ignores chunk
events), not the claimed accumulated answer, while the streaming assembler
does accumulate to the full text. -/
theorem C6_counterexample :
    (process_blocking_response cfgEx stEx
        [chunkMsgOf "Hel", chunkMsgOf "lo", chunkMsgOf " world"]).map
        (fun r => r.snd.fst.llm_result.message.content) = Except.ok "" ∧
    ("" : String) ≠ "Hello world" ∧
    (process_stream_response cfgEx stEx
        [chunkMsgOf "Hel", chunkMsgOf "lo", chunkMsgOf " world"]).map
        (fun a => a.st.llm_result.message.content) = Except.ok "Hello world" :=
  ⟨rfl, by decide, rfl⟩

/-- Claim C6 (amended): only the streaming assembler accumulates
`MessageChunk` deltas, in order, by concatenation into the task state's
assembled text; the blocking assembler ignores chunk events entirely, its
task state (and save history) unchanged, so without a `MessageEnd` its
accumulated text stays empty. -/
theorem C6_stream_accumulates_blocking_ignores :
    (∀ (cfg : PipelineCfg) (st : TaskState) (texts : List String),
      ∃ out, process_stream_response cfg st (texts.map chunkMsgOf) = Except.ok out ∧
        out.st.llm_result.message.content =
          st.llm_result.message.content ++ concatAll texts) ∧
    (∀ (cfg : PipelineCfg) (st : TaskState) (texts : List String),
      process_blocking_response cfg st (texts.map chunkMsgOf) =
        Except.ok (none, st, [])) := by
  constructor
  · intro cfg st texts
    exact stream_content_concat cfg texts st [] []
  · intro cfg st texts
    exact blocking_ignores_chunks cfg texts st []

/-- Claim C7 (code bug): in blocking mode, a `MessageEnd` drained after a
`RetrieverResources` event must return the response with the resources
merged into its metadata.  On the code, the non-empty
`self._task_state.metadata` makes line 118 execute
`response['data']['metadata'] = ...`, and `response` has no `data` key, so
the assembler raises `KeyError('data')` instead of returning.  Second
conjunct: without retriever resources the documented response shape is
returned, showing the claim's shape reading is otherwise right. -/
theorem C7_blocking_metadata_keyerror :
    process_blocking_response cfgEx stEx
        [mkMsg (AppEvent.retrieverResourcesEv ["r1"]), mkMsg (AppEvent.messageEndEv resEx)] =
      Except.error (BlockErr.pyErr (PyExn.keyError "data")) ∧
    (process_blocking_response cfgEx stEx [mkMsg (AppEvent.messageEndEv resEx)]).map
        (fun r => r.fst) =
      Except.ok (some
        [("event", RVal.strR "message"), ("task_id", RVal.strR "t1"),
         ("id", RVal.strR "m1"), ("mode", RVal.strR "chat"),
         ("answer", RVal.strR "final"), ("metadata", RVal.dictR []),
         ("created_at", RVal.intR 100), ("conversation_id", RVal.strR "c1")]) :=
  ⟨rfl, rfl⟩

/-- Claim C8: a drained `MessageReplace` event makes the streaming assembler
emit exactly one `message_replace` frame whose `answer` field is exactly the
replacement text, and it leaves the accumulator — in particular the task
state with its accumulated text, and the save history — unchanged. -/
theorem C8_replace_frame_state_unchanged (cfg : PipelineCfg) (acc : StreamAcc)
    (text tid0 mid0 cid0 am0 : String) :
    streamStep cfg acc
        { task_id := tid0, message_id := mid0, conversation_id := cid0,
          app_mode := am0, event := AppEvent.messageReplaceEv text } =
      Except.ok { acc with
        frames := acc.frames ++ [StreamItem.dataItem (replaceResponse cfg text)] } ∧
    rGet (replaceResponse cfg text) "answer" = some (RVal.strR text) ∧
    rGet (replaceResponse cfg text) "event" = some (RVal.strR "message_replace") := by
  refine ⟨rfl, ?_, ?_⟩ <;> simp [replaceResponse, rGet]

/-- Claim C10 (counterexample): the first drained chunk carries prompt
messages (`[pA]`) while the stored list is still empty, but its delta text
is `None`, so the loop skips it before the prompt-message check; the second
chunk's prompt messages (`[pB]`) are stored instead.  The claim, which
predicts `[pA]`, is false on the code. -/
theorem C10_counterexample :
    (process_stream_response cfgEx stEx
        [mkChunkMsg { prompt_messages := [pA], delta := { content := none } },
         mkChunkMsg { prompt_messages := [pB], delta := { content := some "a" } }]).map
        (fun a => a.st.llm_result.prompt_messages) = Except.ok [pB] ∧
    [pB] ≠ [pA] :=
  ⟨rfl, by decide⟩

/-- Claim C10 (amended): starting from the pipeline's empty initial prompt
messages, the stored prompt messages end up equal to those of the first
chunk with a non-`None` delta text that carries a non-empty prompt-message
list (`firstCarrier`); and once the stored list is non-empty, later chunk
events never overwrite it. -/
theorem C10_prompt_messages_rule :
    (∀ (cfg : PipelineCfg) (model : String) (chunks : List LLMChunk),
      ∃ out, process_stream_response cfg (initialTaskState model)
          (chunks.map mkChunkMsg) = Except.ok out ∧
        out.st.llm_result.prompt_messages = firstCarrier chunks) ∧
    (∀ (cfg : PipelineCfg) (st : TaskState) (chunks : List LLMChunk),
      st.llm_result.prompt_messages ≠ [] →
      ∃ out, process_stream_response cfg st (chunks.map mkChunkMsg) = Except.ok out ∧
        out.st.llm_result.prompt_messages = st.llm_result.prompt_messages) := by
  constructor
  · intro cfg model chunks
    exact stream_pm_characterize cfg chunks (initialTaskState model) [] [] rfl
  · intro cfg st chunks h
    refine stream_pm_preserved cfg chunks st [] [] ?_
    cases hl : st.llm_result.prompt_messages with
    | nil => exact absurd hl h
    | cons a l => rfl

/-- Witness for C10: with prompt messages already holding `[pA]`, streaming
a chunk that carries `[pB]` does not overwrite them. -/
theorem C10_witness :
    ∃ out, process_stream_response cfgEx
        { llm_result :=
            { model := "gpt", prompt_messages := [pA],
              message := { content := "" },
              usage := { prompt_tokens := 0, completion_tokens := 0,
                         total_tokens := 0, total_price := 0 } },
          metadata := none }
        ([{ prompt_messages := [pB], delta := { content := some "x" } }].map mkChunkMsg) =
        Except.ok out ∧
      out.st.llm_result.prompt_messages = [pA] := by
  obtain ⟨out, ho, hp⟩ := C10_prompt_messages_rule.2 cfgEx
    { llm_result :=
        { model := "gpt", prompt_messages := [pA],
          message := { content := "" },
          usage := { prompt_tokens := 0, completion_tokens := 0,
                     total_tokens := 0, total_price := 0 } },
      metadata := none }
    [{ prompt_messages := [pB], delta := { content := some "x" } }] (by decide)
  exact ⟨out, ho, by simpa using hp⟩

end Dify
